import Mathlib

/-!
Shallow embedding of the fintech risk agent (decision engine, entity graph,
AML rules, metrics) and verification of its specification claims.

Python floats are modelled as exact rationals (ℚ): every score produced by the
source is a small decimal literal combined by `+`, `*`, `max` and `min`, so the
float/rational distinction does not affect any comparison appearing here.
Wall-clock fields (latency_ms, timestamp) and uuid-based ids are omitted from
the embedding: they are nondeterministic IO and no claim depends on them.
-/

namespace RiskAgent

/-! ## Entity graph (src/graph/entity_graph.py) -/

/-- Entity node types in the graph (`EntityType`). -/
inductive EntityType where
  | USER | DEVICE | IP_ADDRESS | PAYMENT_METHOD | MERCHANT | PHONE | EMAIL
deriving DecidableEq, Repr

/-- Edge relationship types (`RelationType`). -/
inductive RelationType where
  | OWNS | USES | SHARED_WITH | CONNECTED_TO | LINKED_TO
deriving DecidableEq, Repr

/-- `EntityNode`: a node of the entity graph.  `attributes` is an opaque
key/value dictionary, modelled as an association list. -/
structure EntityNode where
  entity_id : String
  entity_type : EntityType
  attributes : List (String × String)
  risk_score : ℚ := 0
  last_seen : String := ""
deriving DecidableEq, Repr

/-- `EntityEdge`: a relationship between entities. `created_at` omitted
(wall-clock). -/
structure EntityEdge where
  source_id : String
  target_id : String
  relation_type : RelationType
  weight : ℚ := 1
  transaction_count : Nat := 0
deriving DecidableEq, Repr

/-- The graph store: `nodes` is a Python dict (insertion-ordered association
list with in-place replacement), `edges` an append-only list,
`adjacency_list` a dict from source id to successor list. -/
structure EntityGraph where
  nodes : List (String × EntityNode)
  edges : List EntityEdge
  adjacency_list : List (String × List String)
deriving DecidableEq, Repr

def EntityGraph.empty : EntityGraph := ⟨[], [], []⟩

/-- Python dict assignment `d[k] = v`: replace the binding in place when the
key is present, append it otherwise. -/
def dictSet {α : Type} (l : List (String × α)) (k : String) (v : α) :
    List (String × α) :=
  match l with
  | [] => [(k, v)]
  | (k', v') :: t => if k' = k then (k, v) :: t else (k', v') :: dictSet t k v

/-- Python dict lookup `d.get(k)` / `d[k]` as an option. -/
def dictGet {α : Type} (l : List (String × α)) (k : String) : Option α :=
  match l with
  | [] => none
  | (k', v') :: t => if k' = k then some v' else dictGet t k

/-- Python `k in d` for a dict. -/
def dictHas {α : Type} (l : List (String × α)) (k : String) : Bool :=
  (dictGet l k).isSome

/-- `EntityGraph.add_entity`: unconditionally stores a fresh node under
`entity_id` and makes sure the adjacency dict has an entry for it. -/
def add_entity (g : EntityGraph) (entity_id : String) (entity_type : EntityType)
    (attributes : List (String × String)) : EntityGraph :=
  { g with
    nodes := dictSet g.nodes entity_id
      { entity_id := entity_id, entity_type := entity_type,
        attributes := attributes }
    adjacency_list :=
      if dictHas g.adjacency_list entity_id then g.adjacency_list
      else g.adjacency_list ++ [(entity_id, [])] }

/-- Append `target` to `adjacency_list[source]`.  The source guards this by
first ensuring both endpoints are nodes (`add_entity` also creates the
adjacency entry), so the key is always present; the `[]` fallback is
unreachable through the public operations. -/
def adjAppend (l : List (String × List String)) (source target : String) :
    List (String × List String) :=
  match l with
  | [] => [(source, [target])]
  | (k, vs) :: t =>
    if k = source then (k, vs ++ [target]) :: t
    else (k, vs) :: adjAppend t source target

/-- `EntityGraph.add_relationship`: auto-create missing endpoints (source
defaults to USER, target to DEVICE), append the edge, update the adjacency
index keyed by source. -/
def add_relationship (g : EntityGraph) (source_id target_id : String)
    (relation_type : RelationType) (weight : ℚ := 1)
    (transaction_count : Nat := 0) : EntityGraph :=
  let g1 := if dictHas g.nodes source_id then g
            else add_entity g source_id EntityType.USER []
  let g2 := if dictHas g1.nodes target_id then g1
            else add_entity g1 target_id EntityType.DEVICE []
  let edge : EntityEdge :=
    { source_id := source_id, target_id := target_id,
      relation_type := relation_type, weight := weight,
      transaction_count := transaction_count }
  { g2 with
    edges := g2.edges ++ [edge],
    adjacency_list := adjAppend g2.adjacency_list source_id target_id }

/-- All successor ids appearing anywhere in the adjacency dict: the pool from
which BFS can ever enqueue a node.  Used only for the termination measure. -/
def adjTargets (adj : List (String × List String)) : Finset String :=
  (adj.map Prod.snd).flatten.toFinset

/-- The BFS termination measure: the number of enqueuable-but-unvisited nodes,
lexicographically paired with the queue length. -/
def bfsMeasure (adj : List (String × List String))
    (queue : List (String × Nat)) (visited : List String) : Nat × Nat :=
  (((adjTargets adj ∪ (queue.map Prod.fst).toFinset) \ visited.toFinset).card,
    queue.length)

lemma dictGet_mem_targets {adj : List (String × List String)} {c : String}
    {vs : List String} (h : dictGet adj c = some vs) {x : String}
    (hx : x ∈ vs) : x ∈ adjTargets adj := by
  induction adj with
  | nil => simp [dictGet] at h
  | cons p t ih =>
    obtain ⟨k, v⟩ := p
    by_cases hk : k = c
    · simp [dictGet, hk] at h
      subst h
      simp [adjTargets, List.mem_flatten]
      exact Or.inl hx
    · simp [dictGet, hk] at h
      have := ih h
      simp [adjTargets, List.mem_flatten] at this ⊢
      tauto

lemma getD_mem_targets {adj : List (String × List String)} {c x : String}
    (hx : x ∈ (dictGet adj c).getD []) : x ∈ adjTargets adj := by
  cases h : dictGet adj c with
  | none => rw [h] at hx; simp at hx
  | some vs => rw [h] at hx; exact dictGet_mem_targets h hx

/-- Skip step: the unvisited pool cannot grow when the head of the queue is
dropped. -/
lemma bfs_skip_le (adj : List (String × List String)) (c : String) (d : Nat)
    (qt : List (String × Nat)) (visited : List String) :
    ((adjTargets adj ∪ (qt.map Prod.fst).toFinset) \ visited.toFinset).card ≤
    ((adjTargets adj ∪ (((c, d) :: qt).map Prod.fst).toFinset) \
      visited.toFinset).card := by
  apply Finset.card_le_card
  apply Finset.sdiff_subset_sdiff _ le_rfl
  apply Finset.union_subset_union_right
  intro x hx
  simp at hx ⊢
  tauto

/-- Visit step: the popped node leaves the unvisited pool, and everything
newly enqueued was already in the pool. -/
lemma bfs_visit_lt (adj : List (String × List String)) (c : String) (d : Nat)
    (qt : List (String × Nat)) (visited : List String) (nbrs : List String)
    (hn : ∀ x ∈ nbrs, x ∈ adjTargets adj) (hc : c ∉ visited) :
    ((adjTargets adj ∪
        ((qt ++ nbrs.map (fun n => (n, d + 1))).map Prod.fst).toFinset) \
      (visited ++ [c]).toFinset).card <
    ((adjTargets adj ∪ (((c, d) :: qt).map Prod.fst).toFinset) \
      visited.toFinset).card := by
  have hcS : c ∈ (adjTargets adj ∪ (((c, d) :: qt).map Prod.fst).toFinset) \
      visited.toFinset := by
    simp [Finset.mem_sdiff]
    exact hc
  apply Nat.lt_of_le_of_lt _ (Finset.card_erase_lt_of_mem hcS)
  apply Finset.card_le_card
  have hmapmap : (nbrs.map (fun n => (n, d + 1))).map Prod.fst = nbrs := by
    simp [List.map_map, Function.comp_def]
  have hpoolsub :
      adjTargets adj ∪
        ((qt ++ nbrs.map (fun n => (n, d + 1))).map Prod.fst).toFinset ⊆
      adjTargets adj ∪ (((c, d) :: qt).map Prod.fst).toFinset := by
    rw [List.map_append, hmapmap]
    intro x hx
    rcases Finset.mem_union.1 hx with h | h
    · exact Finset.mem_union_left _ h
    · rw [List.toFinset_append, Finset.mem_union] at h
      rcases h with h | h
      · apply Finset.mem_union_right
        simp at h ⊢
        tauto
      · exact Finset.mem_union_left _ (hn x (by simpa using h))
  intro x hx
  rw [Finset.mem_sdiff] at hx
  obtain ⟨hp, hv⟩ := hx
  have hxvc : ¬(x ∈ visited ∨ x = c) := by simpa using hv
  push_neg at hxvc
  exact Finset.mem_erase.2 ⟨hxvc.2, Finset.mem_sdiff.2
    ⟨hpoolsub hp, by simpa using hxvc.1⟩⟩

/-- `EntityGraph._bfs_neighbors`'s worklist loop.  The queue is FIFO
(`queue.pop(0)` / append at the end); a node already visited or beyond
`max_depth` is skipped; otherwise it is marked visited and its unvisited
successors are enqueued one level deeper.  Termination for arbitrary graphs —
cycles included — follows from the visited set: each step either visits a new
node from the finite pool or shortens the queue. -/
def bfsAux (adj : List (String × List String)) (maxDepth : Nat) :
    List (String × Nat) → List String → List String
  | [], visited => visited
  | (c, d) :: qt, visited =>
    if h : c ∈ visited ∨ maxDepth < d then
      bfsAux adj maxDepth qt visited
    else
      bfsAux adj maxDepth
        (qt ++ ((if d + 1 ≤ maxDepth then
            ((dictGet adj c).getD []).filter
              (fun n => decide (n ∉ visited ++ [c]))
          else []).map (fun n => (n, d + 1))))
        (visited ++ [c])
termination_by queue visited => bfsMeasure adj queue visited
decreasing_by
  · simp only [bfsMeasure]
    rcases lt_or_eq_of_le (bfs_skip_le adj c d qt visited) with hlt | heq
    · exact Prod.Lex.left _ _ hlt
    · rw [heq]
      exact Prod.Lex.right _ (by simp)
  · simp only [bfsMeasure]
    apply Prod.Lex.left
    apply bfs_visit_lt
    · intro x hx
      split at hx
      · exact getD_mem_targets (List.mem_of_mem_filter hx)
      · simp at hx
    · exact fun hmem => h (Or.inl hmem)

/-- `EntityGraph._bfs_neighbors`: all neighbors reachable from `start_id`
within `max_depth` hops (the start itself counts as depth 0 and is included).
Python returns a set; the returned list is its insertion-ordered contents. -/
def bfs_neighbors (g : EntityGraph) (start_id : String)
    (max_depth : Nat := 2) : List String :=
  bfsAux g.adjacency_list max_depth [(start_id, 0)] []

/-- Entity type stored for an id, when the id is a node. -/
def nodeType (g : EntityGraph) (eid : String) : Option EntityType :=
  (dictGet g.nodes eid).map (fun n => n.entity_type)

/-- `EntityGraph._find_shared_devices`: devices `OWNS`-owned by `user_id`
that have more than one `OWNS` owner in total. -/
def find_shared_devices (g : EntityGraph) (user_id : String) : List String :=
  ((g.edges.filter (fun e =>
      decide (e.source_id = user_id ∧
        e.relation_type = RelationType.OWNS))).map (fun e => e.target_id)
    ).filter (fun device_id =>
      decide (1 < (g.edges.filter (fun e =>
        decide (e.target_id = device_id ∧
          e.relation_type = RelationType.OWNS))).length))

/-- One step of `_find_shared_resources`' counting dict: bump the count of
`rid` (Python `resource_map.get(rid, 0) + 1`). -/
def bumpCount (m : List (String × Nat)) (rid : String) :
    List (String × Nat) :=
  dictSet m rid (((dictGet m rid).getD 0) + 1)

/-- `EntityGraph._find_shared_resources`: resources of `resource_type`
`OWNS`-owned by members of `user_ids`, counted with multiplicity over the
member list, keeping those owned by more than one member. -/
def find_shared_resources (g : EntityGraph) (user_ids : List String)
    (resource_type : EntityType) : List String :=
  let resource_map :=
    user_ids.foldl (fun m uid =>
      g.edges.foldl (fun m e =>
        if e.source_id = uid ∧ e.relation_type = RelationType.OWNS ∧
            nodeType g e.target_id = some resource_type then
          bumpCount m e.target_id
        else m) m) []
  (resource_map.filter (fun p => decide (1 < p.2))).map Prod.fst

/-- `EntityGraph.detect_mule_network`. -/
def detect_mule_network (g : EntityGraph) (user_id : String)
    (threshold_connections : Nat := 5) : ℚ × List String :=
  if ¬ dictHas g.nodes user_id then (0, [])
  else
    let connected := bfs_neighbors g user_id 2
    let device_count := (connected.filter (fun eid =>
      decide (nodeType g eid = some EntityType.DEVICE))).length
    let payment_method_count := (connected.filter (fun eid =>
      decide (nodeType g eid = some EntityType.PAYMENT_METHOD))).length
    let shared_devices := find_shared_devices g user_id
    let risk_score : ℚ :=
      (if threshold_connections < device_count then 3/10 else 0) +
      (if 3 < payment_method_count then 1/5 else 0) +
      (if shared_devices ≠ [] then 1/4 else 0)
    let patterns :=
      (if threshold_connections < device_count then
        ["HIGH_DEVICE_COUNT_" ++ toString device_count] else []) ++
      (if 3 < payment_method_count then
        ["MULTIPLE_PAYMENT_METHODS_" ++ toString payment_method_count]
       else []) ++
      (if shared_devices ≠ [] then
        ["SHARED_DEVICES_" ++ toString shared_devices.length] else [])
    (min risk_score 1, patterns)

/-- `EntityGraph.detect_fraud_ring`. -/
def detect_fraud_ring (g : EntityGraph) (user_id : String)
    (depth : Nat := 3) : ℚ × List String × List String :=
  if ¬ dictHas g.nodes user_id then (0, [], [])
  else
    let all_connected := bfs_neighbors g user_id depth
    let users_in_network := all_connected.filter (fun eid =>
      decide (nodeType g eid = some EntityType.USER))
    let shared_devices :=
      find_shared_resources g users_in_network EntityType.DEVICE
    let shared_payment_methods :=
      find_shared_resources g users_in_network EntityType.PAYMENT_METHOD
    let shared_ips :=
      find_shared_resources g users_in_network EntityType.IP_ADDRESS
    let risk_score : ℚ :=
      (if 1 < shared_devices.length then 7/20 else 0) +
      (if 0 < shared_payment_methods.length then 1/4 else 0) +
      (if 1 < shared_ips.length then 1/5 else 0)
    let patterns :=
      (if 1 < shared_devices.length then
        ["SHARED_DEVICES_RING_" ++ toString shared_devices.length]
       else []) ++
      (if 0 < shared_payment_methods.length then
        ["SHARED_PAYMENTS_" ++ toString shared_payment_methods.length]
       else []) ++
      (if 1 < shared_ips.length then
        ["SHARED_IPS_" ++ toString shared_ips.length] else [])
    (min risk_score 1, patterns, users_in_network)

/-- A call against the graph store's public mutating interface. -/
inductive GraphOp where
  | entity (id : String) (ty : EntityType) (attrs : List (String × String))
  | relationship (src tgt : String) (rel : RelationType) (w : ℚ) (tc : Nat)

def applyOp (g : EntityGraph) : GraphOp → EntityGraph
  | .entity id ty attrs => add_entity g id ty attrs
  | .relationship src tgt rel w tc => add_relationship g src tgt rel w tc

def applyOps (ops : List GraphOp) : EntityGraph :=
  ops.foldl applyOp EntityGraph.empty

/-! ## Decision engine (src/core/decision_engine.py) -/

/-- `DecisionType`: authorization decision. -/
inductive DecisionType where
  | ALLOW | BLOCK | REVIEW
deriving DecidableEq, Repr

/-- `RiskLevel`: risk classification. -/
inductive RiskLevel where
  | LOW | MEDIUM | HIGH
deriving DecidableEq, Repr

/-- The dynamically typed `value` field of a `DecisionReason`. -/
inductive SignalValue where
  | num (q : ℚ)
  | text (s : String)
  | flag (b : Bool)
deriving DecidableEq, Repr

/-- `DecisionReason`: one signal contributing to the risk score. -/
structure DecisionReason where
  signal_id : String
  signal_name : String
  weight : ℚ
  value : SignalValue
  threshold : Option ℚ := none
  category : String := "unknown"
deriving DecidableEq, Repr

/-- `RiskDecision` (wall-clock and uuid fields omitted, see module header). -/
structure RiskDecision where
  decision : DecisionType
  risk_score : ℚ
  risk_level : RiskLevel
  reasons : List DecisionReason
  reason_codes : List String
  next_actions : List String
  model_version : String
  explanation : String
deriving DecidableEq, Repr

/-- The engine configuration: thresholds, feature flags and blend weights,
with the defaults of `RiskDecisionEngine._load_config`. -/
structure EngineConfig where
  high_risk_threshold : ℚ := 4/5
  low_risk_threshold : ℚ := 3/10
  enable_aml_screening : Bool := true
  enable_graph_analysis : Bool := true
  w_ml : ℚ := 7/10
  w_rules : ℚ := 3/10
deriving Repr

def defaultConfig : EngineConfig := {}

/-- `RiskDecisionEngine._score_ml_model`: simulated inference. -/
def score_ml_model : ℚ × List DecisionReason :=
  (3/20,
   [{ signal_id := "ml_velocity_ok", signal_name := "Normal Velocity",
      weight := 1/20, value := .num 2, threshold := some 5,
      category := "velocity" },
    { signal_id := "ml_device_trusted", signal_name := "Trusted Device",
      weight := 3/100, value := .num (19/20), threshold := some (4/5),
      category := "device" },
    { signal_id := "ml_behavior_normal",
      signal_name := "Normal Behavior Pattern", weight := 7/100,
      value := .num 1, threshold := some (1/2), category := "behavior" }])

/-- `RiskDecisionEngine._evaluate_rules`: simulated rule evaluation. -/
def evaluate_rules : ℚ × List DecisionReason :=
  (1/10,
   [{ signal_id := "rule_amount_under_limit",
      signal_name := "Amount Under Limit", weight := 1/20,
      value := .num 100, threshold := some 5000, category := "rules" },
    { signal_id := "rule_merchant_tier_good",
      signal_name := "Good Merchant Tier", weight := 1/20,
      value := .text "tier_1", category := "merchant" }])

/-- `RiskDecisionEngine._check_aml`: simulated, always clean. -/
def check_aml : ℚ × List DecisionReason :=
  (0, [{ signal_id := "aml_sanctions_clear", signal_name := "No Sanctions Hit",
         weight := 0, value := .text "CLEAR", category := "aml" }])

/-- `RiskDecisionEngine._analyze_entity_graph`: simulated, always isolated. -/
def analyze_entity_graph : ℚ × List DecisionReason :=
  (0, [{ signal_id := "graph_no_mule_pattern",
         signal_name := "No Mule Network Detected", weight := 0,
         value := .text "isolated", category := "graph" }])

/-- `RiskDecisionEngine._combine_scores`: weighted blend of the ML and rules
scores, reasons merged and sorted by weight descending. -/
def combine_scores (cfg : EngineConfig) (ml_score : ℚ)
    (ml_reasons : List DecisionReason) (rules_score : ℚ)
    (rules_reasons : List DecisionReason) : ℚ × List DecisionReason :=
  (cfg.w_ml * ml_score + cfg.w_rules * rules_score,
   (ml_reasons ++ rules_reasons).insertionSort
     (fun a b => b.weight ≤ a.weight))

/-- The score flow of `score_transaction` steps 3–5: the weighted blend,
then — when the respective flags are on — a `max` override with the AML
score, then a `max` override with the graph score. -/
def combinedWithOverrides (cfg : EngineConfig)
    (ml rules aml graph : ℚ) : ℚ :=
  let combined := cfg.w_ml * ml + cfg.w_rules * rules
  let combined := if cfg.enable_aml_screening then max combined aml
                  else combined
  if cfg.enable_graph_analysis then max combined graph else combined

/-- `signal_name.upper().replace(" ", "_")` (ASCII upper-casing, and the
single-character replacement is a character map). -/
def toReasonCode (s : String) : String :=
  ⟨s.data.map (fun c => if c.toUpper = ' ' then '_' else c.toUpper)⟩

/-- `RiskDecisionEngine._extract_reason_codes`. -/
def extract_reason_codes (reasons : List DecisionReason)
    (top_n : Nat := 3) : List String :=
  (reasons.take top_n).map (fun r => toReasonCode r.signal_name)

/-- `RiskDecisionEngine._apply_decision_policy`.  The Python nested-list
reason-code artifact (`[code, [codes…]]` flattened afterwards) is modelled
directly as the flattened list it produces.  `user_country` is
`context.get("user_country")` (absent key modelled as `none`). -/
def apply_decision_policy (cfg : EngineConfig) (risk_score : ℚ)
    (reasons : List DecisionReason) (user_country : Option String) :
    DecisionType × RiskLevel × List String × List String :=
  let base :
      DecisionType × RiskLevel × List String × List String :=
    if cfg.high_risk_threshold ≤ risk_score then
      (.BLOCK, .HIGH,
       "HIGH_RISK_SCORE" :: (extract_reason_codes reasons 3).take 3,
       ["BLOCK", "ESCALATE_TO_COMPLIANCE", "STORE_FOR_INVESTIGATION"])
    else if risk_score ≤ cfg.low_risk_threshold then
      (.ALLOW, .LOW, ["LOW_RISK"], ["APPROVE", "MONITOR"])
    else
      (.REVIEW, .MEDIUM,
       "MEDIUM_RISK" :: (extract_reason_codes reasons 3).take 2,
       ["MANUAL_REVIEW", "REQUEST_ADDITIONAL_VERIFICATION"])
  let next_actions :=
    if user_country ≠ some "US" then base.2.2.2 ++ ["SCA_STEP_UP"]
    else base.2.2.2
  (base.1, base.2.1, base.2.2.1, next_actions)

/-- `RiskDecisionEngine._generate_explanation` (numeric formatting of the
weights abstracted to `toString`). -/
def generate_explanation (reasons : List DecisionReason)
    (reason_codes : List String) : String :=
  "Decision based on " ++ toString reason_codes.length ++ " key signals: " ++
    String.intercalate "; "
      ((reasons.take 3).map
        (fun r => r.signal_name ++ " (" ++ toString r.weight ++ ")"))

/-- The fail-safe decision built in `score_transaction`'s `except` handler. -/
def failSafeDecision (e : String) : RiskDecision :=
  { decision := .REVIEW, risk_score := 1/2, risk_level := .MEDIUM,
    reasons := [], reason_codes := ["ENGINE_ERROR"],
    next_actions := ["MANUAL_REVIEW"], model_version := "v1.0.0",
    explanation := "Decision engine error: " ++ e }

/-- The `try` body of `score_transaction`, with each pipeline stage passed in
as a fallible computation (Python stages raise; the embedding returns
`Except`).  AML and graph stages run — and can therefore fail — only when
their flags are enabled, exactly as in the source. -/
def score_transaction_pipeline (cfg : EngineConfig)
    (enrich : Except String Unit)
    (mlStage rulesStage amlStage graphStage :
      Except String (ℚ × List DecisionReason))
    (user_country : Option String) : Except String RiskDecision := do
  let _ ← enrich
  let (ml_score, ml_reasons) ← mlStage
  let (rules_score, rules_reasons) ← rulesStage
  let (combined₀, all₀) :=
    combine_scores cfg ml_score ml_reasons rules_score rules_reasons
  let (combined₁, all₁) ←
    if cfg.enable_aml_screening then do
      let (aml_score, aml_reasons) ← amlStage
      pure (max combined₀ aml_score, all₀ ++ aml_reasons)
    else pure (combined₀, all₀)
  let (combined₂, all₂) ←
    if cfg.enable_graph_analysis then do
      let (graph_score, graph_reasons) ← graphStage
      pure (max combined₁ graph_score, all₁ ++ graph_reasons)
    else pure (combined₁, all₁)
  let (decision, risk_level, reason_codes, next_actions) :=
    apply_decision_policy cfg combined₂ all₂ user_country
  pure
    { decision := decision, risk_score := combined₂, risk_level := risk_level,
      reasons := all₂, reason_codes := reason_codes,
      next_actions := next_actions, model_version := "v1.0.0",
      explanation := generate_explanation all₂ reason_codes }

/-- `score_transaction`'s top level: run the pipeline, catching any stage
failure into the fail-safe REVIEW decision.  No failure escapes. -/
def score_transaction_with (cfg : EngineConfig)
    (enrich : Except String Unit)
    (mlStage rulesStage amlStage graphStage :
      Except String (ℚ × List DecisionReason))
    (user_country : Option String) : RiskDecision :=
  match score_transaction_pipeline cfg enrich mlStage rulesStage amlStage
      graphStage user_country with
  | .ok d => d
  | .error e => failSafeDecision e

/-- `RiskDecisionEngine.score_transaction` with the source's simulated stage
implementations (which never raise). -/
def score_transaction (cfg : EngineConfig) (user_country : Option String) :
    RiskDecision :=
  score_transaction_with cfg (.ok ()) (.ok score_ml_model)
    (.ok evaluate_rules) (.ok check_aml) (.ok analyze_entity_graph)
    user_country

/-! ## AML / sanctions rules (src/rules/aml_rules.py) -/

/-- `SanctionsListType`. -/
inductive SanctionsListType where
  | OFAC | UN | EU | UK | HMT
deriving DecidableEq, Repr

/-- The enum's `.value` string. -/
def SanctionsListType.val : SanctionsListType → String
  | .OFAC => "ofac"
  | .UN => "un"
  | .EU => "eu"
  | .UK => "uk"
  | .HMT => "hmt"

/-- `SanctionsHit`. -/
structure SanctionsHit where
  hit : Bool
  list_type : SanctionsListType
  match_strength : ℚ
  entity_name : String := ""
  reason : String := ""
deriving DecidableEq, Repr

/-- `AMLRulesEngine.__init__`'s mock `sanctions_lists` dict, in insertion
order. -/
def sanctions_lists : List (SanctionsListType × List String) :=
  [(.OFAC, ["North Korea Entity 1", "Iran Bank X"]),
   (.UN, ["UN Sanctioned Individual"]),
   (.EU, ["EU Listed Person"])]

/-- Python `s.lower()` over the character data (all strings screened here
are ASCII, where `str.lower` is the per-character lowering). -/
def lowerData (s : String) : List Char := s.data.map Char.toLower

/-- Python `s.upper()` (ASCII, per-character). -/
def pyUpper (s : String) : String := ⟨s.data.map Char.toUpper⟩

/-- Python's case-insensitive containment test
`needle.lower() in hay.lower()` (contiguous substring). -/
def lowerSubstr (needle hay : String) : Bool :=
  decide (lowerData needle <:+: lowerData hay)

/-- The reason code `f"SANCTIONS_{list_type.value.upper()}_HIT"`. -/
def sanctionsCode (lt : SanctionsListType) : String :=
  "SANCTIONS_" ++ pyUpper lt.val ++ "_HIT"

/-- The inner loop of `screen_sanctions` over the entities of one list:
each substring hit records a `SanctionsHit` with match_strength 0.95,
raises the score with `max` and appends the list's reason code. -/
def screenListEntities (entity_name : String) (lt : SanctionsListType)
    (acc : ℚ × List String × List SanctionsHit) (entities : List String) :
    ℚ × List String × List SanctionsHit :=
  entities.foldl (fun acc ent =>
    if lowerSubstr ent entity_name then
      (max acc.1 (19/20), acc.2.1 ++ [sanctionsCode lt],
       acc.2.2 ++ [{ hit := true, list_type := lt, match_strength := 19/20,
                     entity_name := entity_name,
                     reason := "Match: " ++ ent }])
    else acc) acc

/-- The fixed high-risk country set of `screen_sanctions`. -/
def high_risk_countries : List String := ["KP", "IR", "SY"]

/-- `AMLRulesEngine.screen_sanctions`. -/
def screen_sanctions (entity_name entity_country : String) :
    ℚ × List String × List SanctionsHit :=
  let afterLists := sanctions_lists.foldl
    (fun acc p => screenListEntities entity_name p.1 acc p.2) (0, [], [])
  if entity_country ∈ high_risk_countries then
    (max afterLists.1 (17/20),
     afterLists.2.1 ++ ["HIGH_RISK_COUNTRY_" ++ entity_country],
     afterLists.2.2)
  else afterLists

/-- `STRFilingQueue` state. -/
structure STRReport where
  transaction_id : String
  report_id : String := ""
  status : String := ""
deriving DecidableEq, Repr

structure STRQueue where
  pending_strs : List STRReport := []
  filed_strs : List STRReport := []
deriving DecidableEq, Repr

/-- `f"str_{n:06d}"`. -/
def strId (n : Nat) : String :=
  let s := toString n
  "str_" ++ (List.replicate (6 - s.length) '0').asString ++ s

/-- `STRFilingQueue.enqueue_str`: the report id is derived from the current
pending count; the report is appended as PENDING. -/
def enqueue_str (q : STRQueue) (r : STRReport) : STRQueue × String :=
  let report_id := strId q.pending_strs.length
  ({ q with pending_strs := q.pending_strs ++
      [{ r with report_id := report_id, status := "PENDING" }] },
   report_id)

/-- Find and remove the first pending report with the given id, keeping the
order of the rest (`pending_strs.pop(i)` at the first matching index). -/
def removeFirstReport : List STRReport → String →
    Option (STRReport × List STRReport)
  | [], _ => none
  | r :: t, rid =>
    if r.report_id = rid then some (r, t)
    else (removeFirstReport t rid).map (fun p => (p.1, r :: p.2))

/-- `STRFilingQueue.file_str`: mark the first matching pending report FILED,
move it to `filed_strs`, report success. -/
def file_str (q : STRQueue) (report_id : String) : STRQueue × Bool :=
  match removeFirstReport q.pending_strs report_id with
  | none => (q, false)
  | some (r, rest) =>
    ({ pending_strs := rest,
       filed_strs := q.filed_strs ++ [{ r with status := "FILED" }] }, true)

/-! ## Latency percentiles (src/monitoring/metrics.py, `LatencyBucket`) -/

/-- `sorted(latencies)` (ascending; ties on equal rationals immaterial). -/
def pySorted (l : List ℚ) : List ℚ := l.insertionSort (· ≤ ·)

/-- `LatencyBucket.p50`: `statistics.median` — the middle element of the
sorted samples for odd n, the mean of the two middle elements for even n;
0 on an empty sample set. -/
def p50 (latencies : List ℚ) : ℚ :=
  if latencies = [] then 0
  else
    let s := pySorted latencies
    let n := s.length
    if n % 2 = 1 then s.getD (n / 2) 0
    else (s.getD (n / 2 - 1) 0 + s.getD (n / 2) 0) / 2

/-- `LatencyBucket.p95`: `sorted_lat[min(int(n*0.95), n-1)]`, 0 on empty.
`int(n*0.95)` is embedded as exact `n*95/100` (natural-number division):
`0.95` is below its double-precision literal by less than one part in 2⁵³,
so `float(n)*0.95` always rounds to a double whose truncation equals
`floor(95n/100)` — the products are either integers or at least 0.05 away
from one. -/
def p95 (latencies : List ℚ) : ℚ :=
  if latencies = [] then 0
  else
    let s := pySorted latencies
    let idx := s.length * 95 / 100
    s.getD (min idx (s.length - 1)) 0

/-- `LatencyBucket.p99`: as `p95` with quantile 0.99. -/
def p99 (latencies : List ℚ) : ℚ :=
  if latencies = [] then 0
  else
    let s := pySorted latencies
    let idx := s.length * 99 / 100
    s.getD (min idx (s.length - 1)) 0

/-- The spec's percentile formula, stated in its own words for comparison:
"nearest-rank method — sort samples, index = floor(n × quantile), clamp to
last index. Empty sample set returns 0." -/
def specNearestRank (l : List ℚ) (q : ℚ) : ℚ :=
  if l = [] then 0
  else
    let s := pySorted l
    let idx := ⌊(l.length : ℚ) * q⌋₊
    s.getD (min idx (s.length - 1)) 0

/-! ## Dictionary lemmas -/

lemma dictGet_dictSet {α : Type} (l : List (String × α)) (k k' : String)
    (v : α) :
    dictGet (dictSet l k' v) k = if k' = k then some v else dictGet l k := by
  induction l with
  | nil => simp [dictSet, dictGet]
  | cons p t ih =>
    obtain ⟨pk, pv⟩ := p
    by_cases h : pk = k'
    · subst h
      simp [dictSet, dictGet]
      by_cases hk : pk = k <;> simp [hk]
    · simp [dictSet, h]
      by_cases hk : pk = k
      · subst hk
        have : ¬ pk = k' := h
        simp [dictGet, if_neg (fun hh : k' = pk => this hh.symm)]
      · simp [dictGet, hk, ih]

lemma dictHas_dictSet {α : Type} (l : List (String × α)) (k k' : String)
    (v : α) (h : dictHas l k = true) : dictHas (dictSet l k' v) k = true := by
  unfold dictHas at h ⊢
  rw [dictGet_dictSet]
  by_cases hk : k' = k <;> simp [hk, h]

lemma dictHas_append_entry {α : Type} (l : List (String × α)) (k k' : String)
    (v : α) (h : dictHas l k = true) :
    dictHas (l ++ [(k', v)]) k = true := by
  unfold dictHas at h ⊢
  induction l with
  | nil => simp [dictGet] at h
  | cons p t ih =>
    obtain ⟨pk, pv⟩ := p
    by_cases hk : pk = k
    · simp [dictGet, hk]
    · simp [dictGet, hk] at h ⊢
      exact ih h

/-! ## Graph invariants and behavior -/

/-- Every edge's endpoints are stored nodes. -/
def edgeInv (g : EntityGraph) : Prop :=
  ∀ e ∈ g.edges, dictHas g.nodes e.source_id = true ∧
    dictHas g.nodes e.target_id = true

lemma add_entity_nodes (g : EntityGraph) (id : String) (ty : EntityType)
    (attrs : List (String × String)) :
    (add_entity g id ty attrs).nodes = dictSet g.nodes id
      { entity_id := id, entity_type := ty, attributes := attrs } := rfl

lemma add_entity_edges (g : EntityGraph) (id : String) (ty : EntityType)
    (attrs : List (String × String)) :
    (add_entity g id ty attrs).edges = g.edges := rfl

lemma dictHas_add_entity_self (g : EntityGraph) (id : String)
    (ty : EntityType) (attrs : List (String × String)) :
    dictHas (add_entity g id ty attrs).nodes id = true := by
  unfold dictHas
  rw [add_entity_nodes, dictGet_dictSet]
  simp

lemma dictHas_add_entity_mono (g : EntityGraph) (id x : String)
    (ty : EntityType) (attrs : List (String × String))
    (h : dictHas g.nodes x = true) :
    dictHas (add_entity g id ty attrs).nodes x = true := by
  rw [add_entity_nodes]
  exact dictHas_dictSet _ _ _ _ h

lemma edgeInv_add_entity (g : EntityGraph) (id : String) (ty : EntityType)
    (attrs : List (String × String)) (h : edgeInv g) :
    edgeInv (add_entity g id ty attrs) := by
  intro e he
  rw [add_entity_edges] at he
  obtain ⟨hs, ht⟩ := h e he
  exact ⟨dictHas_add_entity_mono g id _ ty attrs hs,
    dictHas_add_entity_mono g id _ ty attrs ht⟩

lemma edgeInv_add_relationship (g : EntityGraph) (src tgt : String)
    (rel : RelationType) (w : ℚ) (tc : Nat) (h : edgeInv g) :
    edgeInv (add_relationship g src tgt rel w tc) := by
  unfold add_relationship
  set g1 := if dictHas g.nodes src then g
            else add_entity g src EntityType.USER [] with hg1
  have h1 : edgeInv g1 ∧ dictHas g1.nodes src = true := by
    rw [hg1]
    split
    · exact ⟨h, by assumption⟩
    · exact ⟨edgeInv_add_entity g src EntityType.USER [] h,
        dictHas_add_entity_self g src EntityType.USER []⟩
  set g2 := if dictHas g1.nodes tgt then g1
            else add_entity g1 tgt EntityType.DEVICE [] with hg2
  have h2 : edgeInv g2 ∧ dictHas g2.nodes src = true ∧
      dictHas g2.nodes tgt = true := by
    rw [hg2]
    split
    · exact ⟨h1.1, h1.2, by assumption⟩
    · exact ⟨edgeInv_add_entity g1 tgt EntityType.DEVICE [] h1.1,
        dictHas_add_entity_mono g1 tgt src EntityType.DEVICE [] h1.2,
        dictHas_add_entity_self g1 tgt EntityType.DEVICE []⟩
  intro e he
  simp only [List.mem_append, List.mem_singleton] at he
  rcases he with he | rfl
  · exact h2.1 e he
  · exact ⟨h2.2.1, h2.2.2⟩

lemma edgeInv_applyOp (g : EntityGraph) (op : GraphOp) (h : edgeInv g) :
    edgeInv (applyOp g op) := by
  cases op with
  | entity id ty attrs => exact edgeInv_add_entity g id ty attrs h
  | relationship src tgt rel w tc =>
    exact edgeInv_add_relationship g src tgt rel w tc h

lemma edgeInv_foldl (ops : List GraphOp) (g : EntityGraph) (h : edgeInv g) :
    edgeInv (ops.foldl applyOp g) := by
  induction ops generalizing g with
  | nil => exact h
  | cons op t ih => exact ih _ (edgeInv_applyOp g op h)

/-- BFS visits each node at most once: the visited list stays duplicate-free
through the whole traversal. -/
lemma bfsAux_nodup (adj : List (String × List String)) (maxDepth : Nat)
    (queue : List (String × Nat)) (visited : List String)
    (hv : visited.Nodup) : (bfsAux adj maxDepth queue visited).Nodup := by
  induction queue, visited using bfsAux.induct adj maxDepth with
  | case1 visited => simpa [bfsAux] using hv
  | case2 c d qt visited h ih =>
    rw [bfsAux]
    simp only [dif_pos h]
    exact ih hv
  | case3 c d qt visited h ih =>
    rw [bfsAux]
    simp only [dif_neg h]
    apply ih
    simp [List.nodup_append, hv]
    exact fun hmem => h (Or.inl hmem)

/-- The minimal shared-device scenario: two distinct users each `OWNS` the
same device, and nothing else. -/
def sharedDeviceGraph (u1 u2 d : String) : EntityGraph :=
  applyOps [.entity u1 .USER [], .entity u2 .USER [], .entity d .DEVICE [],
    .relationship u1 d .OWNS 1 0, .relationship u2 d .OWNS 1 0]

def ringGraph : EntityGraph := sharedDeviceGraph "usr_1" "usr_2" "dev_1"

/-- C5: for every graph — cyclic graphs included — the breadth-first
traversal underlying `detect_fraud_ring` and `detect_mule_network`
terminates and adds each node to the visited set at most once.  Termination
is established by the well-founded definition of `bfsAux`, whose measure is
the number of enqueuable-but-unvisited nodes (the visited-set check), not
the depth bound; the visited list it returns has no duplicates, and neither
does the related-users list `detect_fraud_ring` derives from it. -/
theorem C5_bfs_terminates_and_visits_each_node_at_most_once
    (g : EntityGraph) (start : String) (maxDepth depth : Nat) :
    (bfs_neighbors g start maxDepth).Nodup ∧
    (detect_fraud_ring g start depth).2.2.Nodup := by
  constructor
  · exact bfsAux_nodup g.adjacency_list maxDepth [(start, 0)] [] (by simp)
  · unfold detect_fraud_ring
    split
    · simp
    · exact List.Nodup.filter _
        (bfsAux_nodup g.adjacency_list depth [(start, 0)] [] (by simp))

set_option maxHeartbeats 1600000 in
/-- C6 counterexample: in the minimal two-users-one-shared-device graph the
claim fails — `detect_fraud_ring` on `usr_1` returns risk 0, no pattern
codes at all, and a related-users list missing `usr_2`. -/
theorem C6_counterexample :
    detect_fraud_ring ringGraph "usr_1" 3 = (0, [], ["usr_1"]) ∧
    ¬ (0 < (detect_fraud_ring ringGraph "usr_1" 3).1 ∧
        "usr_2" ∈ (detect_fraud_ring ringGraph "usr_1" 3).2.2) := by
  have h : detect_fraud_ring ringGraph "usr_1" 3 = (0, [], ["usr_1"]) := by
    simp [ringGraph, sharedDeviceGraph, detect_fraud_ring, bfs_neighbors,
      bfsAux, applyOps, applyOp, add_entity, add_relationship, adjAppend,
      dictSet, dictGet, dictHas, EntityGraph.empty, nodeType,
      find_shared_resources, bumpCount]
  refine ⟨h, ?_⟩
  rw [h]
  simp

set_option maxHeartbeats 1600000 in
/-- C6 amended: two distinct USER nodes each owning the same DEVICE node do
not, by themselves, trigger ring detection: with only those two `OWNS`
edges, `detect_fraud_ring` on either user returns risk 0, no pattern codes,
and a related-users list holding only the queried user — the directed BFS
cannot reach the co-owner from the shared device, and a single shared
device is below the strict `> 1` threshold in any case. -/
theorem C6_amended_shared_device_not_flagged (u1 u2 d : String)
    (h12 : u1 ≠ u2) (h1d : u1 ≠ d) (h2d : u2 ≠ d) :
    detect_fraud_ring (sharedDeviceGraph u1 u2 d) u1 3 = (0, [], [u1]) ∧
    detect_fraud_ring (sharedDeviceGraph u1 u2 d) u2 3 = (0, [], [u2]) := by
  constructor
  · simp [sharedDeviceGraph, detect_fraud_ring, bfs_neighbors, bfsAux,
      applyOps, applyOp, add_entity, add_relationship, adjAppend, dictSet,
      dictGet, dictHas, EntityGraph.empty, nodeType, find_shared_resources,
      bumpCount, h12, h1d, h2d, h12.symm, h1d.symm, h2d.symm]
  · simp [sharedDeviceGraph, detect_fraud_ring, bfs_neighbors, bfsAux,
      applyOps, applyOp, add_entity, add_relationship, adjAppend, dictSet,
      dictGet, dictHas, EntityGraph.empty, nodeType, find_shared_resources,
      bumpCount, h12, h1d, h2d, h12.symm, h1d.symm, h2d.symm]

theorem C6_amended_witness :
    ("usr_1" : String) ≠ "usr_2" ∧ ("usr_1" : String) ≠ "dev_1" ∧
    ("usr_2" : String) ≠ "dev_1" ∧
    detect_fraud_ring (sharedDeviceGraph "usr_1" "usr_2" "dev_1")
      "usr_1" 3 = (0, [], ["usr_1"]) :=
  ⟨by decide, by decide, by decide,
   (C6_amended_shared_device_not_flagged "usr_1" "usr_2" "dev_1"
     (by decide) (by decide) (by decide)).1⟩

/-- C7 counterexample: `add_entity` is an unconditional upsert — re-adding
id `e1` with a different type overwrites the stored type (the claim's
first-write-wins behavior does not hold). -/
theorem C7_counterexample :
    nodeType (add_entity (add_entity EntityGraph.empty "e1"
      EntityType.USER []) "e1" EntityType.DEVICE []) "e1" =
        some EntityType.DEVICE ∧
    nodeType (add_entity (add_entity EntityGraph.empty "e1"
      EntityType.USER []) "e1" EntityType.DEVICE []) "e1" ≠
        some EntityType.USER := by
  constructor <;>
    simp [nodeType, add_entity, dictSet, dictGet, dictHas,
      EntityGraph.empty]

/-- C7 amended: `add_entity` is an unconditional upsert in which the LAST
write wins: re-adding an existing id replaces the stored node — type and
attributes — with the new values; no error and no merge. -/
theorem C7_amended_add_entity_last_write_wins (g : EntityGraph)
    (id : String) (ty : EntityType) (attrs : List (String × String)) :
    dictGet (add_entity g id ty attrs).nodes id =
      some { entity_id := id, entity_type := ty, attributes := attrs } := by
  rw [add_entity_nodes, dictGet_dictSet]
  simp

/-- C8: after every sequence of `add_entity` / `add_relationship`
operations starting from the empty graph, every edge's `source_id` and
`target_id` exist as nodes in the node store — `add_relationship`
auto-creates any missing endpoint as a default-typed node before appending
the edge. -/
theorem C8_edge_endpoints_always_exist (ops : List GraphOp)
    (e : EntityEdge) (he : e ∈ (applyOps ops).edges) :
    dictHas (applyOps ops).nodes e.source_id = true ∧
    dictHas (applyOps ops).nodes e.target_id = true := by
  have h : edgeInv (applyOps ops) := by
    unfold applyOps
    apply edgeInv_foldl
    intro e he
    simp [EntityGraph.empty] at he
  exact h e he

/-- C1: with AML screening and graph analysis enabled, the overall score
combination is `max(w_ml·ml + w_rules·rules, aml, graph)` — the AML and
graph scores override by `max`, they are never added — and the risk score
`score_transaction` returns is exactly this combination of its four stage
scores. -/
theorem C1_override_combination_law (cfg : EngineConfig)
    (ml rules aml graph : ℚ) (uc : Option String)
    (ha : cfg.enable_aml_screening = true)
    (hg : cfg.enable_graph_analysis = true) :
    combinedWithOverrides cfg ml rules aml graph =
      max (cfg.w_ml * ml + cfg.w_rules * rules) (max aml graph) ∧
    (score_transaction cfg uc).risk_score =
      combinedWithOverrides cfg score_ml_model.1 evaluate_rules.1
        check_aml.1 analyze_entity_graph.1 := by
  constructor
  · simp [combinedWithOverrides, ha, hg, max_assoc]
  · simp [score_transaction, score_transaction_with,
      score_transaction_pipeline, combinedWithOverrides, combine_scores,
      ha, hg, Bind.bind, Except.bind, Pure.pure, Except.pure]

theorem C1_witness :
    defaultConfig.enable_aml_screening = true ∧
    defaultConfig.enable_graph_analysis = true ∧
    combinedWithOverrides defaultConfig 1 (1/2) (3/4) (1/4) =
      max (defaultConfig.w_ml * 1 + defaultConfig.w_rules * (1/2))
        (max (3/4) (1/4)) ∧
    (score_transaction defaultConfig none).risk_score =
      combinedWithOverrides defaultConfig score_ml_model.1 evaluate_rules.1
        check_aml.1 analyze_entity_graph.1 :=
  ⟨rfl, rfl,
   (C1_override_combination_law defaultConfig 1 (1/2) (3/4) (1/4) none
     rfl rfl).1,
   (C1_override_combination_law defaultConfig 1 (1/2) (3/4) (1/4) none
     rfl rfl).2⟩

/-- C2: the decision policy classifies the final combined score by the
default thresholds — `≥ 0.8` blocks at HIGH, `≤ 0.3` allows at LOW,
strictly between reviews at MEDIUM; the engine's returned risk score lies
in [0,1] and its decision and risk level are exactly the policy applied to
its own (post-override) risk score. -/
theorem C2_decision_policy_consistency (s : ℚ)
    (reasons : List DecisionReason) (uc : Option String) :
    (defaultConfig.high_risk_threshold ≤ s →
      (apply_decision_policy defaultConfig s reasons uc).1 =
          DecisionType.BLOCK ∧
        (apply_decision_policy defaultConfig s reasons uc).2.1 =
          RiskLevel.HIGH) ∧
    (s ≤ defaultConfig.low_risk_threshold →
      (apply_decision_policy defaultConfig s reasons uc).1 =
          DecisionType.ALLOW ∧
        (apply_decision_policy defaultConfig s reasons uc).2.1 =
          RiskLevel.LOW) ∧
    (defaultConfig.low_risk_threshold < s →
      s < defaultConfig.high_risk_threshold →
      (apply_decision_policy defaultConfig s reasons uc).1 =
          DecisionType.REVIEW ∧
        (apply_decision_policy defaultConfig s reasons uc).2.1 =
          RiskLevel.MEDIUM) ∧
    0 ≤ (score_transaction defaultConfig uc).risk_score ∧
    (score_transaction defaultConfig uc).risk_score ≤ 1 ∧
    (score_transaction defaultConfig uc).decision =
      (apply_decision_policy defaultConfig
        (score_transaction defaultConfig uc).risk_score
        (score_transaction defaultConfig uc).reasons uc).1 ∧
    (score_transaction defaultConfig uc).risk_level =
      (apply_decision_policy defaultConfig
        (score_transaction defaultConfig uc).risk_score
        (score_transaction defaultConfig uc).reasons uc).2.1 := by
  refine ⟨fun h => ?_, fun h => ?_, fun h1 h2 => ?_, ?_, ?_, ?_, ?_⟩
  · simp [apply_decision_policy, h]
  · have hnb : ¬ defaultConfig.high_risk_threshold ≤ s := by
      simp only [defaultConfig] at h ⊢
      norm_num at h ⊢
      linarith
    simp [apply_decision_policy, hnb, h]
  · have hnb : ¬ defaultConfig.high_risk_threshold ≤ s := not_le.2 h2
    have hna : ¬ s ≤ defaultConfig.low_risk_threshold := not_le.2 h1
    simp [apply_decision_policy, hnb, hna]
  · simp [score_transaction, score_transaction_with,
      score_transaction_pipeline, combine_scores, score_ml_model,
      evaluate_rules, check_aml, analyze_entity_graph, defaultConfig,
      Bind.bind, Except.bind, Pure.pure, Except.pure] <;> norm_num
  · simp [score_transaction, score_transaction_with,
      score_transaction_pipeline, combine_scores, score_ml_model,
      evaluate_rules, check_aml, analyze_entity_graph, defaultConfig,
      Bind.bind, Except.bind, Pure.pure, Except.pure] <;> norm_num
  · have ha : defaultConfig.enable_aml_screening = true := rfl
    have hg : defaultConfig.enable_graph_analysis = true := rfl
    simp [score_transaction, score_transaction_with,
      score_transaction_pipeline, combine_scores, ha, hg,
      Bind.bind, Except.bind, Pure.pure, Except.pure]
  · have ha : defaultConfig.enable_aml_screening = true := rfl
    have hg : defaultConfig.enable_graph_analysis = true := rfl
    simp [score_transaction, score_transaction_with,
      score_transaction_pipeline, combine_scores, ha, hg,
      Bind.bind, Except.bind, Pure.pure, Except.pure]

theorem C2_witness :
    (defaultConfig.high_risk_threshold ≤ (9/10 : ℚ) ∧
      (apply_decision_policy defaultConfig (9/10) [] none).1 =
        DecisionType.BLOCK) ∧
    ((1/5 : ℚ) ≤ defaultConfig.low_risk_threshold ∧
      (apply_decision_policy defaultConfig (1/5) [] none).1 =
        DecisionType.ALLOW) ∧
    (defaultConfig.low_risk_threshold < (1/2 : ℚ) ∧
      (1/2 : ℚ) < defaultConfig.high_risk_threshold ∧
      (apply_decision_policy defaultConfig (1/2) [] none).1 =
        DecisionType.REVIEW) ∧
    0 ≤ (score_transaction defaultConfig none).risk_score :=
  have hb : defaultConfig.high_risk_threshold ≤ (9/10 : ℚ) := by
    simp [defaultConfig]; norm_num
  have hal : (1/5 : ℚ) ≤ defaultConfig.low_risk_threshold := by
    simp [defaultConfig]; norm_num
  have hr1 : defaultConfig.low_risk_threshold < (1/2 : ℚ) := by
    simp [defaultConfig]; norm_num
  have hr2 : (1/2 : ℚ) < defaultConfig.high_risk_threshold := by
    simp [defaultConfig]; norm_num
  ⟨⟨hb, ((C2_decision_policy_consistency (9/10) [] none).1 hb).1⟩,
   ⟨hal, ((C2_decision_policy_consistency (1/5) [] none).2.1 hal).1⟩,
   ⟨hr1, hr2,
    ((C2_decision_policy_consistency (1/2) [] none).2.2.1 hr1 hr2).1⟩,
   (C2_decision_policy_consistency 0 [] none).2.2.2.1⟩

/-- C3: if any pipeline stage of `score_transaction` fails, the caller
still receives a well-formed decision — REVIEW at risk 0.5 with reason
codes exactly `["ENGINE_ERROR"]` and next actions `["MANUAL_REVIEW"]` —
and no failure escapes (the result is a total value, not an exception). -/
theorem C3_fail_safe (cfg : EngineConfig) (enrich : Except String Unit)
    (mlStage rulesStage amlStage graphStage :
      Except String (ℚ × List DecisionReason))
    (uc : Option String) (e : String)
    (h : score_transaction_pipeline cfg enrich mlStage rulesStage amlStage
      graphStage uc = .error e) :
    score_transaction_with cfg enrich mlStage rulesStage amlStage
        graphStage uc = failSafeDecision e ∧
    (score_transaction_with cfg enrich mlStage rulesStage amlStage
        graphStage uc).decision = DecisionType.REVIEW ∧
    (score_transaction_with cfg enrich mlStage rulesStage amlStage
        graphStage uc).risk_score = 1/2 ∧
    (score_transaction_with cfg enrich mlStage rulesStage amlStage
        graphStage uc).reason_codes = ["ENGINE_ERROR"] ∧
    (score_transaction_with cfg enrich mlStage rulesStage amlStage
        graphStage uc).next_actions = ["MANUAL_REVIEW"] := by
  have hw : score_transaction_with cfg enrich mlStage rulesStage amlStage
      graphStage uc = failSafeDecision e := by
    unfold score_transaction_with
    rw [h]
  refine ⟨hw, ?_, ?_, ?_, ?_⟩ <;> rw [hw] <;> rfl

theorem C3_witness :
    score_transaction_pipeline defaultConfig (.ok ())
        (.error "model stage failure") (.ok evaluate_rules) (.ok check_aml)
        (.ok analyze_entity_graph) none = .error "model stage failure" ∧
    (score_transaction_with defaultConfig (.ok ())
        (.error "model stage failure") (.ok evaluate_rules) (.ok check_aml)
        (.ok analyze_entity_graph) none).decision = DecisionType.REVIEW ∧
    (score_transaction_with defaultConfig (.ok ())
        (.error "model stage failure") (.ok evaluate_rules) (.ok check_aml)
        (.ok analyze_entity_graph) none).risk_score = 1/2 ∧
    (score_transaction_with defaultConfig (.ok ())
        (.error "model stage failure") (.ok evaluate_rules) (.ok check_aml)
        (.ok analyze_entity_graph) none).reason_codes = ["ENGINE_ERROR"] :=
  have hp : score_transaction_pipeline defaultConfig (.ok ())
      (.error "model stage failure") (.ok evaluate_rules) (.ok check_aml)
      (.ok analyze_entity_graph) none = .error "model stage failure" := rfl
  have hall := C3_fail_safe defaultConfig (.ok ())
    (.error "model stage failure") (.ok evaluate_rules) (.ok check_aml)
    (.ok analyze_entity_graph) none "model stage failure" hp
  ⟨hp, hall.2.1, hall.2.2.1, hall.2.2.2.1⟩

/-- The single edge of the one-call scenario used to witness C8. -/
def udEdge : EntityEdge :=
  { source_id := "u", target_id := "d",
    relation_type := RelationType.OWNS, weight := 1,
    transaction_count := 0 }

theorem C8_witness :
    udEdge ∈ (applyOps [.relationship "u" "d" .OWNS 1 0]).edges ∧
    dictHas (applyOps [.relationship "u" "d" .OWNS 1 0]).nodes "u" = true ∧
    dictHas (applyOps [.relationship "u" "d" .OWNS 1 0]).nodes "d" = true :=
  have hmem : udEdge ∈ (applyOps [.relationship "u" "d" .OWNS 1 0]).edges := by
    simp [udEdge, applyOps, applyOp, add_relationship, add_entity, dictSet,
      dictGet, dictHas, EntityGraph.empty, adjAppend]
  ⟨hmem, C8_edge_endpoints_always_exist [.relationship "u" "d" .OWNS 1 0]
    udEdge hmem⟩

/-! ## C4: sanctions screening score law -/

def sanctionsHitB (name : String) : Bool :=
  sanctions_lists.any (fun p => p.2.any (fun ent => lowerSubstr ent name))

/-- One step of the inner entity loop. -/
def screenStep (name : String) (lt : SanctionsListType)
    (acc : ℚ × List String × List SanctionsHit) (ent : String) :
    ℚ × List String × List SanctionsHit :=
  if lowerSubstr ent name then
    (max acc.1 (19/20), acc.2.1 ++ [sanctionsCode lt],
     acc.2.2 ++ [{ hit := true, list_type := lt, match_strength := 19/20,
                   entity_name := name, reason := "Match: " ++ ent }])
  else acc

lemma screenListEntities_eq_foldl (name : String) (lt : SanctionsListType)
    (acc : ℚ × List String × List SanctionsHit) (ents : List String) :
    screenListEntities name lt acc ents =
      ents.foldl (screenStep name lt) acc := rfl

lemma screenListEntities_score (name : String) (lt : SanctionsListType)
    (acc : ℚ × List String × List SanctionsHit) (ents : List String) :
    (screenListEntities name lt acc ents).1 =
      if ents.any (fun e => lowerSubstr e name) then max acc.1 (19/20)
      else acc.1 := by
  rw [screenListEntities_eq_foldl]
  induction ents generalizing acc with
  | nil => simp
  | cons e t ih =>
    rw [List.foldl_cons, ih]
    by_cases hb : lowerSubstr e name = true
    · by_cases ht : t.any (fun e => lowerSubstr e name) = true <;>
        simp [screenStep, hb, ht, max_assoc]
    · simp only [Bool.not_eq_true] at hb
      simp [screenStep, hb]

lemma screenListEntities_codes_mono (name : String) (lt : SanctionsListType)
    (acc : ℚ × List String × List SanctionsHit) (ents : List String)
    (c : String) (hc : c ∈ acc.2.1) :
    c ∈ (screenListEntities name lt acc ents).2.1 := by
  rw [screenListEntities_eq_foldl]
  induction ents generalizing acc with
  | nil => simpa using hc
  | cons e t ih =>
    rw [List.foldl_cons]
    apply ih
    unfold screenStep
    split
    · simp [hc]
    · exact hc

lemma screenListEntities_code_of_hit (name : String) (lt : SanctionsListType)
    (acc : ℚ × List String × List SanctionsHit) (ents : List String)
    (ent : String) (hent : ent ∈ ents) (hm : lowerSubstr ent name = true) :
    sanctionsCode lt ∈ (screenListEntities name lt acc ents).2.1 := by
  rw [screenListEntities_eq_foldl]
  induction ents generalizing acc with
  | nil => simp at hent
  | cons e t ih =>
    rw [List.foldl_cons]
    rcases List.mem_cons.1 hent with rfl | hmem
    · rw [← screenListEntities_eq_foldl]
      apply screenListEntities_codes_mono
      simp [screenStep, hm]
    · exact ih _ hmem

lemma screenFold_score (name : String)
    (lists : List (SanctionsListType × List String))
    (acc : ℚ × List String × List SanctionsHit) :
    (lists.foldl (fun acc p => screenListEntities name p.1 acc p.2) acc).1 =
      if lists.any (fun p => p.2.any (fun e => lowerSubstr e name)) then
        max acc.1 (19/20)
      else acc.1 := by
  induction lists generalizing acc with
  | nil => simp
  | cons p t ih =>
    rw [List.foldl_cons, ih, screenListEntities_score]
    by_cases hp : p.2.any (fun e => lowerSubstr e name) = true
    · by_cases ht : t.any (fun q => q.2.any (fun e => lowerSubstr e name)) = true <;>
        simp [hp, ht, max_assoc]
    · by_cases ht : t.any (fun q => q.2.any (fun e => lowerSubstr e name)) = true <;>
        simp [hp, ht]

lemma screenFold_codes_mono (name : String)
    (lists : List (SanctionsListType × List String))
    (acc : ℚ × List String × List SanctionsHit) (c : String)
    (hc : c ∈ acc.2.1) :
    c ∈ (lists.foldl (fun acc p => screenListEntities name p.1 acc p.2)
      acc).2.1 := by
  induction lists generalizing acc with
  | nil => simpa using hc
  | cons p t ih =>
    rw [List.foldl_cons]
    exact ih _ (screenListEntities_codes_mono name p.1 acc p.2 c hc)

lemma screenFold_code_of_hit (name : String)
    (lists : List (SanctionsListType × List String))
    (acc : ℚ × List String × List SanctionsHit) (lt : SanctionsListType)
    (ents : List String) (ent : String) (hl : (lt, ents) ∈ lists)
    (hent : ent ∈ ents) (hm : lowerSubstr ent name = true) :
    sanctionsCode lt ∈
      (lists.foldl (fun acc p => screenListEntities name p.1 acc p.2)
        acc).2.1 := by
  induction lists generalizing acc with
  | nil => simp at hl
  | cons p t ih =>
    rw [List.foldl_cons]
    rcases List.mem_cons.1 hl with rfl | hl
    · exact screenFold_codes_mono name t _ _
        (screenListEntities_code_of_hit name lt acc ents ent hent hm)
    · exact ih _ hl

/-- C4: for every name and country, `screen_sanctions` returns the maximum
of 0.95-if-any-list-entry-matches and 0.85-if-high-risk-country — the two
sources combine by `max`, never by addition, so the score never exceeds
0.95; the corresponding `SANCTIONS_<LIST>_HIT` and
`HIGH_RISK_COUNTRY_<country>` reason codes are emitted for each source. -/
theorem C4_sanctions_score_law (name country : String) :
    (screen_sanctions name country).1 =
      max (if sanctionsHitB name then (19/20 : ℚ) else 0)
          (if country ∈ high_risk_countries then (17/20 : ℚ) else 0) ∧
    (screen_sanctions name country).1 ≤ 19/20 ∧
    (country ∈ high_risk_countries →
      ("HIGH_RISK_COUNTRY_" ++ country) ∈
        (screen_sanctions name country).2.1) ∧
    (∀ lt ents ent, (lt, ents) ∈ sanctions_lists → ent ∈ ents →
      lowerSubstr ent name = true →
      sanctionsCode lt ∈ (screen_sanctions name country).2.1) := by
  have hhit : ((sanctions_lists.foldl
      (fun acc p => screenListEntities name p.1 acc p.2) (0, [], [])).1) =
      if sanctionsHitB name then (19/20 : ℚ) else 0 := by
    rw [screenFold_score]
    unfold sanctionsHitB
    split
    · exact max_eq_right (by norm_num)
    · rfl
  have hmain : (screen_sanctions name country).1 =
      max (if sanctionsHitB name then (19/20 : ℚ) else 0)
          (if country ∈ high_risk_countries then (17/20 : ℚ) else 0) := by
    unfold screen_sanctions
    by_cases hc : country ∈ high_risk_countries
    · simp only [if_pos hc]
      rw [hhit]
    · simp only [if_neg hc]
      rw [hhit]
      by_cases hh : sanctionsHitB name = true <;> simp [hh] <;> norm_num
  refine ⟨hmain, ?_, ?_, ?_⟩
  · rw [hmain]
    by_cases hh : sanctionsHitB name = true <;>
      by_cases hc : country ∈ high_risk_countries <;>
        simp [hh, hc] <;> norm_num
  · intro hc
    unfold screen_sanctions
    simp only [if_pos hc]
    simp
  · intro lt ents ent hl hent hm
    unfold screen_sanctions
    by_cases hc : country ∈ high_risk_countries
    · simp only [if_pos hc]
      exact List.mem_append_left _
        (screenFold_code_of_hit name sanctions_lists (0, [], []) lt ents ent
          hl hent hm)
    · simp only [if_neg hc]
      exact screenFold_code_of_hit name sanctions_lists (0, [], []) lt ents
        ent hl hent hm

theorem C4_witness :
    ((SanctionsListType.OFAC, ["North Korea Entity 1", "Iran Bank X"]) ∈
        sanctions_lists ∧
      "Iran Bank X" ∈ ["North Korea Entity 1", "Iran Bank X"] ∧
      lowerSubstr "Iran Bank X" "Iran Bank X Holdings" = true ∧
      ("KP" : String) ∈ high_risk_countries) ∧
    (screen_sanctions "Iran Bank X Holdings" "KP").1 ≤ 19/20 ∧
    "HIGH_RISK_COUNTRY_KP" ∈
      (screen_sanctions "Iran Bank X Holdings" "KP").2.1 ∧
    sanctionsCode SanctionsListType.OFAC ∈
      (screen_sanctions "Iran Bank X Holdings" "KP").2.1 :=
  have hl : (SanctionsListType.OFAC,
      ["North Korea Entity 1", "Iran Bank X"]) ∈ sanctions_lists := by decide
  have hent : ("Iran Bank X" : String) ∈
      ["North Korea Entity 1", "Iran Bank X"] := by decide
  have hm : lowerSubstr "Iran Bank X" "Iran Bank X Holdings" = true := by
    decide
  have hc : ("KP" : String) ∈ high_risk_countries := by decide
  ⟨⟨hl, hent, hm, hc⟩,
   (C4_sanctions_score_law "Iran Bank X Holdings" "KP").2.1,
   (C4_sanctions_score_law "Iran Bank X Holdings" "KP").2.2.1 hc,
   (C4_sanctions_score_law "Iran Bank X Holdings" "KP").2.2.2
     SanctionsListType.OFAC _ "Iran Bank X" hl hent hm⟩


/-! ## C9: latency percentiles -/

lemma length_pySorted (l : List ℚ) : (pySorted l).length = l.length :=
  List.length_insertionSort _ l

lemma natFloor_cast_mul_div (n k m : ℕ) :
    ⌊(n : ℚ) * ((k : ℚ) / (m : ℚ))⌋₊ = n * k / m := by
  rw [show (n : ℚ) * ((k : ℚ) / (m : ℚ)) =
      ((n * k : ℕ) : ℚ) / ((m : ℕ) : ℚ) by push_cast; ring]
  rw [Nat.floor_div_nat, Nat.floor_natCast]

lemma natFloor_mul_95 (n : ℕ) :
    ⌊(n : ℚ) * (95/100)⌋₊ = n * 95 / 100 := by
  have h : ((95 : ℚ)/100) = ((95 : ℕ) : ℚ) / ((100 : ℕ) : ℚ) := by norm_num
  rw [h, natFloor_cast_mul_div]

lemma natFloor_mul_99 (n : ℕ) :
    ⌊(n : ℚ) * (99/100)⌋₊ = n * 99 / 100 := by
  have h : ((99 : ℚ)/100) = ((99 : ℕ) : ℚ) / ((100 : ℕ) : ℚ) := by norm_num
  rw [h, natFloor_cast_mul_div]

/-- C9 counterexample: `p50` is not the nearest-rank percentile — on the
two-sample set {0, 2} the nearest-rank index is floor(2·0.5) = 1, selecting
the element 2, but `p50` (statistics.median) averages the two middle
elements and returns 1. -/
theorem C9_counterexample :
    p50 [0, 2] = 1 ∧ specNearestRank [0, 2] (50/100) = 2 ∧
    p50 [0, 2] ≠ specNearestRank [0, 2] (50/100) := by
  have h1 : p50 [0, 2] = 1 := by
    simp [p50, pySorted, List.insertionSort, List.orderedInsert]
  have h2 : specNearestRank [0, 2] (50/100) = 2 := by
    simp [specNearestRank, pySorted, List.insertionSort, List.orderedInsert]
    norm_num
  refine ⟨h1, h2, ?_⟩
  rw [h1, h2]
  norm_num

/-- C9 amended: `p95` and `p99` use the nearest-rank method — the sorted
sample at index floor(n × quantile) clamped to the last index — and all
three percentile queries return 0 on an empty sample set; `p50`, however,
is the statistical median (for even n the mean of the two middle sorted
samples), not the nearest-rank element. -/
theorem C9_amended_percentile_methods (l : List ℚ) :
    p95 l = specNearestRank l (95/100) ∧
    p99 l = specNearestRank l (99/100) ∧
    p50 [] = 0 ∧ p95 [] = 0 ∧ p99 [] = 0 := by
  refine ⟨?_, ?_, rfl, rfl, rfl⟩
  · by_cases h : l = []
    · simp [h, p95, specNearestRank]
    · simp only [p95, specNearestRank, if_neg h]
      rw [length_pySorted, natFloor_mul_95]
  · by_cases h : l = []
    · simp [h, p99, specNearestRank]
    · simp only [p99, specNearestRank, if_neg h]
      rw [length_pySorted, natFloor_mul_99]

/-! ## C10: STR report-id reuse -/

/-- Enqueue a report for `t1`, then one for `t2`, file the first, then
enqueue a report for `t3`: the session of the implicit claim. -/
def strQ1 : STRQueue × String :=
  enqueue_str {} { transaction_id := "t1" }
def strQ2 : STRQueue × String :=
  enqueue_str strQ1.1 { transaction_id := "t2" }
def strQ3 : STRQueue × Bool := file_str strQ2.1 strQ1.2
def strQ4 : STRQueue × String :=
  enqueue_str strQ3.1 { transaction_id := "t3" }

/-- C10: report ids derive from the current pending count, so after
enqueuing two reports and filing the first, the third enqueue reuses the
still-pending second report's id `str_000001`; the pending list then holds
two different reports under one id, and `file_str` with that id files
whichever comes first in the pending list (the `t2` report). -/
theorem C10_pending_report_ids_not_unique :
    strQ2.2 = "str_000001" ∧ strQ4.2 = "str_000001" ∧
    strQ4.1.pending_strs.map (fun r => r.report_id) =
      ["str_000001", "str_000001"] ∧
    strQ4.1.pending_strs.map (fun r => r.transaction_id) = ["t2", "t3"] ∧
    ¬ (strQ4.1.pending_strs.map (fun r => r.report_id)).Nodup ∧
    (file_str strQ4.1 "str_000001").1.filed_strs.map
      (fun r => r.transaction_id) = ["t1", "t2"] := by
  refine ⟨?_, ?_, ?_, ?_, ?_, ?_⟩ <;> decide

end RiskAgent
